import Mathlib

/-
Verification development for the `beach` repository's storage-engine core.

The model is a shallow embedding of `src/umbrella/src/cache.rs` (the block
cache with type-tagged entries and raw-byte / pointer-array reinterpretation)
together with the `new_fs` / `mount` builtins of `src/beach/src/builtins.rs`.
Machine integers become `Nat` with explicit bounds where overflow or width
matters; the `Rc<RefCell<Vec<_>>>` shared buffers (`SharedVec`) become
addresses into an explicit heap carried in the cache state, so that handle
identity and mutation visibility are expressible; fallible operations return
`Except`, and an assertion failure (Rust panic) is modelled as `Option.none`.
-/

namespace Beach

/-- Byte width of a `BlockNumber`: the Rust `BlockNumber` wraps a `u64`, so
`mem::size_of::<BlockNumber>() = 8` (the cache module's own unit test runs the
conversion pair at `u64`). -/
def blockNumberSize : Nat := 8

/-- The eight little-endian bytes of a 64-bit value: the byte image that
`to_u8` exposes when it reinterprets one `BlockNumber` of a
`Vec<BlockNumber>`'s memory as raw bytes (little-endian target). -/
def leBytes8 (x : Nat) : List Nat :=
  [ x % 256, x / 256 % 256, x / 65536 % 256, x / 16777216 % 256,
    x / 4294967296 % 256, x / 1099511627776 % 256,
    x / 281474976710656 % 256, x / 72057594037927936 % 256 ]

/-- Recompose a 64-bit value from its eight little-endian bytes. -/
def leVal8 (b0 b1 b2 b3 b4 b5 b6 b7 : Nat) : Nat :=
  b0 + 256 * (b1 + 256 * (b2 + 256 * (b3 + 256 * (b4 + 256 * (b5 + 256 * (b6 + 256 * b7))))))

/-- Rust `to_u8::<BlockNumber>`: reinterpret a vector of block numbers as its
underlying byte buffer (`len * element_size` bytes, no copy in the source; the
model makes the byte image explicit). -/
def to_u8 : List Nat → List Nat
  | [] => []
  | x :: v => leBytes8 x ++ to_u8 v

/-- The decoding loop underlying `from_u8` at `T = BlockNumber`: consume the
byte sequence eight bytes at a time, reassembling each group as one
little-endian `u64`.  The groups are the in-memory values that
`Vec::from_raw_parts` reinterprets. -/
def decodeLoop : List Nat → List Nat
  | b0 :: b1 :: b2 :: b3 :: b4 :: b5 :: b6 :: b7 :: rest =>
      leVal8 b0 b1 b2 b3 b4 b5 b6 b7 :: decodeLoop rest
  | _ => []

/-- Rust `from_u8::<BlockNumber>`: asserts `len % size_of::<T>() == 0` (the
capacity assertion coincides with it for every buffer the cache feeds in,
where `capacity = len`), then reinterprets the bytes as block numbers.
`none` models the assertion failure, i.e. a panic. -/
def from_u8 (bs : List Nat) : Option (List Nat) :=
  if bs.length % blockNumberSize = 0 then some (decodeLoop bs) else none

theorem to_u8_length (v : List Nat) : (to_u8 v).length = blockNumberSize * v.length := by
  induction v with
  | nil => rfl
  | cons x v ih =>
      simp [to_u8, leBytes8, ih, blockNumberSize]
      omega

theorem leVal8_leBytes8 (x : Nat) (hx : x < 18446744073709551616) :
    leVal8 (x % 256) (x / 256 % 256) (x / 65536 % 256) (x / 16777216 % 256)
      (x / 4294967296 % 256) (x / 1099511627776 % 256)
      (x / 281474976710656 % 256) (x / 72057594037927936 % 256) = x := by
  simp only [leVal8]
  omega

theorem decodeLoop_to_u8 (v : List Nat) (hv : ∀ x ∈ v, x < 18446744073709551616) :
    decodeLoop (to_u8 v) = v := by
  induction v with
  | nil => rfl
  | cons x v ih =>
      have hx : x < 18446744073709551616 := hv x (List.mem_cons_self x v)
      have hrest : ∀ y ∈ v, y < 18446744073709551616 := fun y hy => hv y (List.mem_cons_of_mem x hy)
      have h1 : decodeLoop (to_u8 (x :: v)) =
          leVal8 (x % 256) (x / 256 % 256) (x / 65536 % 256) (x / 16777216 % 256)
            (x / 4294967296 % 256) (x / 1099511627776 % 256)
            (x / 281474976710656 % 256) (x / 72057594037927936 % 256) :: decodeLoop (to_u8 v) := rfl
      rw [h1, ih hrest, leVal8_leBytes8 x hx]

theorem decodeLoop_length : ∀ bs : List Nat, (decodeLoop bs).length = bs.length / 8
  | [] => by simp [decodeLoop]
  | [_] => by simp [decodeLoop]
  | [_, _] => by simp [decodeLoop]
  | [_, _, _] => by simp [decodeLoop]
  | [_, _, _, _] => by simp [decodeLoop]
  | [_, _, _, _, _] => by simp [decodeLoop]
  | [_, _, _, _, _, _] => by simp [decodeLoop]
  | [_, _, _, _, _, _, _] => by simp [decodeLoop]
  | _ :: _ :: _ :: _ :: _ :: _ :: _ :: _ :: rest => by
      simp only [decodeLoop, List.length_cons, decodeLoop_length rest]
      omega

theorem from_u8_to_u8 (v : List Nat) (hv : ∀ x ∈ v, x < 18446744073709551616) :
    from_u8 (to_u8 v) = some v := by
  unfold from_u8
  rw [to_u8_length]
  simp [blockNumberSize, Nat.mul_mod_right, decodeLoop_to_u8 v hv]

theorem from_u8_some_length {bs ps : List Nat} (h : from_u8 bs = some ps) :
    blockNumberSize * ps.length = bs.length := by
  unfold from_u8 at h
  by_cases hm : bs.length % blockNumberSize = 0
  · rw [if_pos hm] at h
    cases h
    rw [decodeLoop_length bs]
    simp only [blockNumberSize] at hm ⊢
    omega
  · rw [if_neg hm] at h
    cases h

/-- The device error enumeration (`device::Error`).  The `device` module is
not part of the sources at hand; its error kinds are modelled from the spec:
I/O failure, out-of-range block access, and `CacheInvalid` (a block accessed
under the wrong cache-entry variant). -/
inductive DError where
  | CacheInvalid
  | OutOfRange
  | Io
deriving DecidableEq, Repr

/-- The block device under the cache.  Modelled from the spec: `BlockDevice`
has a `block_size` and a `block_count`; `read` fills a caller buffer of
`block_size` bytes with one block's contents or fails, `write` persists one
block or fails.  `readFn` gives the bytes a successful read places in the
buffer, `writeFn` the outcome of a write; both leave the modelled device
unchanged (the cache only observes results). -/
structure BlockDevice where
  block_size : Nat
  block_count : Nat
  readFn : Nat → Except DError (List Nat)
  writeFn : Nat → List Nat → Except DError Unit

/-- A device is well formed when every successful read delivers exactly
`block_size` bytes — the spec's "buffer length must equal block_size"; in the
source this holds by construction, because `Cache::read` passes a
`vec![0; block_size]` buffer that `device.read` fills in place. -/
def DeviceWF (d : BlockDevice) : Prop :=
  ∀ bn bs, d.readFn bn = Except.ok bs → bs.length = d.block_size

/-- A cache entry, with the `SharedVec` payload replaced by an address into
the cache state's heap (`heapB` for `Block` byte buffers, `heapP` for
`Pointers` arrays).  Two handles to the same `Rc<RefCell<Vec<_>>>` are two
occurrences of the same address. -/
inductive EntryRef where
  | block (addr : Nat)
  | pointers (addr : Nat)
deriving DecidableEq, Repr

/-- `HashMap::get`-style lookup on the entry association list (keys are
unique, order irrelevant). -/
def lookupEntry (bn : Nat) : List (Nat × EntryRef) → Option EntryRef
  | [] => none
  | (k, e) :: rest => if k = bn then some e else lookupEntry bn rest

/-- `HashMap::insert` / `Entry::insert`: install `e` under `bn`, replacing an
existing binding. -/
def insertEntry (bn : Nat) (e : EntryRef) : List (Nat × EntryRef) → List (Nat × EntryRef)
  | [] => [(bn, e)]
  | (k, e') :: rest => if k = bn then (bn, e) :: rest else (k, e') :: insertEntry bn e rest

/-- The `Cache` struct: the entry map and the owned device, plus the two
heaps backing the `SharedVec` allocations that entries and handles point
into.  A fresh `Rc::new(RefCell::new(v))` is modelled as appending `v` to the
appropriate heap and handing out its index. -/
structure Cache where
  entries : List (Nat × EntryRef)
  device : BlockDevice
  heapB : List (List Nat)
  heapP : List (List Nat)

/-- `Cache::new(device)`: empty entry map (and no live allocations). -/
def Cache.new (d : BlockDevice) : Cache :=
  { entries := [], device := d, heapB := [], heapP := [] }

/-- `Cache::read`: on a `Block` hit, return a clone of the stored `SharedVec`
(the same address, no new allocation); on a `Pointers` hit, fail with
`CacheInvalid`; on a miss, read the device into a fresh `block_size` buffer,
allocate it, insert it as a `Block` entry and return its handle.  A device
failure propagates via `?` before anything is inserted. -/
def Cache.read (s : Cache) (bn : Nat) : Except DError Nat × Cache :=
  match lookupEntry bn s.entries with
  | some (EntryRef.block addr) => (Except.ok addr, s)
  | some (EntryRef.pointers _) => (Except.error DError.CacheInvalid, s)
  | none =>
      match s.device.readFn bn with
      | Except.error e => (Except.error e, s)
      | Except.ok block =>
          (Except.ok s.heapB.length,
            { s with heapB := s.heapB ++ [block],
                     entries := insertEntry bn (EntryRef.block s.heapB.length) s.entries })

/-- `Cache::read_pointers`: symmetric to `read`, but a `Block` hit fails with
`CacheInvalid`, and a miss pushes the freshly read bytes through `from_u8`
before caching them as a `Pointers` entry.  The outer `none` models the
panic of `from_u8`'s length assertion; every non-panicking outcome is
`some (result, new state)`. -/
def Cache.read_pointers (s : Cache) (bn : Nat) : Option (Except DError Nat × Cache) :=
  match lookupEntry bn s.entries with
  | some (EntryRef.block _) => some (Except.error DError.CacheInvalid, s)
  | some (EntryRef.pointers addr) => some (Except.ok addr, s)
  | none =>
      match s.device.readFn bn with
      | Except.error e => some (Except.error e, s)
      | Except.ok block =>
          match from_u8 block with
          | none => none
          | some ps =>
              some (Except.ok s.heapP.length,
                { s with heapP := s.heapP ++ [ps],
                         entries := insertEntry bn (EntryRef.pointers s.heapP.length) s.entries })

/-- `Cache::write_pointers`: unconditionally install a fresh `Pointers`
entry for `bn`, replacing any existing binding; no device call appears in its
body, and the device component is untouched. -/
def Cache.write_pointers (s : Cache) (bn : Nat) (ps : List Nat) : Cache :=
  { s with heapP := s.heapP ++ [ps],
           entries := insertEntry bn (EntryRef.pointers s.heapP.length) s.entries }

/-- `CacheEntry::bytes`: the byte image of an entry — a clone of the byte
buffer for `Block`, `to_u8` of a clone of the array for `Pointers` — resolved
through the heaps. -/
def Cache.entryBytes (s : Cache) : EntryRef → List Nat
  | EntryRef.block addr => s.heapB.getD addr []
  | EntryRef.pointers addr => to_u8 (s.heapP.getD addr [])

/-- The loop of `Cache::write_all` over a suffix of the entry list: write each
entry's byte image to the device at its block number, stopping at the first
device error (the `?` operator).  The first component records the writes the
device accepted, in order, so that the flushing behaviour is observable in
the model; the second is the `Result` the function returns. -/
def writeAllGo (s : Cache) : List (Nat × EntryRef) → List (Nat × List Nat) × Except DError Unit
  | [] => ([], Except.ok ())
  | (bn, e) :: rest =>
      match s.device.writeFn bn (s.entryBytes e) with
      | Except.error err => ([], Except.error err)
      | Except.ok _ =>
          let r := writeAllGo s rest
          ((bn, s.entryBytes e) :: r.1, r.2)

/-- `Cache::write_all`: iterate every cached entry and write its current byte
image back to the device, propagating the first failure.  The entry map is
not modified. -/
def Cache.write_all (s : Cache) : List (Nat × List Nat) × Except DError Unit :=
  writeAllGo s s.entries

/-- Reading through a `SharedVec<u8>` handle: the bytes a holder of `addr`
currently observes. -/
def Cache.derefB (s : Cache) (addr : Nat) : List Nat :=
  s.heapB.getD addr []

/-- Reading through a `SharedVec<BlockNumber>` handle. -/
def Cache.derefP (s : Cache) (addr : Nat) : List Nat :=
  s.heapP.getD addr []

/-- Mutating through a `SharedVec<u8>` handle (`borrow_mut`): overwrite the
buffer at `addr`; every holder of the same address observes the change. -/
def Cache.writeB (s : Cache) (addr : Nat) (bs : List Nat) : Cache :=
  { s with heapB := s.heapB.set addr bs }

/-- `Cache::read_pointers` with the returned handle dereferenced: the pointer
sequence the caller actually sees. -/
def Cache.read_pointers_val (s : Cache) (bn : Nat) : Option (Except DError (List Nat) × Cache) :=
  (s.read_pointers bn).map (fun r => (r.1.map (fun a => r.2.derefP a), r.2))

theorem lookupEntry_insertEntry_self (bn : Nat) (e : EntryRef) (l : List (Nat × EntryRef)) :
    lookupEntry bn (insertEntry bn e l) = some e := by
  induction l with
  | nil => simp [insertEntry, lookupEntry]
  | cons q rest ih =>
      by_cases h : q.1 = bn
      · simp [insertEntry, h, lookupEntry]
      · simp [insertEntry, h, lookupEntry, ih]

theorem mem_insertEntry {q : Nat × EntryRef} {bn : Nat} {e : EntryRef}
    {l : List (Nat × EntryRef)} (h : q ∈ insertEntry bn e l) : q = (bn, e) ∨ q ∈ l := by
  induction l with
  | nil =>
      simp [insertEntry] at h
      exact Or.inl h
  | cons p rest ih =>
      by_cases hp : p.1 = bn
      · simp only [insertEntry, if_pos hp, List.mem_cons] at h
        rcases h with h | h
        · exact Or.inl h
        · exact Or.inr (List.mem_cons_of_mem p h)
      · simp only [insertEntry, if_neg hp, List.mem_cons] at h
        rcases h with h | h
        · exact Or.inr (by simp [h])
        · rcases ih h with h' | h'
          · exact Or.inl h'
          · exact Or.inr (List.mem_cons_of_mem p h')

theorem getD_concat_self (l : List (List Nat)) (b : List Nat) :
    (l ++ [b]).getD l.length [] = b := by
  simp [List.getD]

theorem getD_concat_of_lt (l : List (List Nat)) (a : Nat) (b : List Nat) (h : a < l.length) :
    (l ++ [b]).getD a [] = l.getD a [] := by
  simp [List.getD, List.getElem?_append_left h]

theorem getD_mem (l : List (List Nat)) (a : Nat) (h : a < l.length) : l.getD a [] ∈ l := by
  rw [List.getD_eq_getElem l [] h]
  exact List.getElem_mem h

theorem read_hit_block {s : Cache} {bn a : Nat}
    (h : lookupEntry bn s.entries = some (EntryRef.block a)) :
    s.read bn = (Except.ok a, s) := by
  simp [Cache.read, h]

theorem read_hit_pointers {s : Cache} {bn a : Nat}
    (h : lookupEntry bn s.entries = some (EntryRef.pointers a)) :
    s.read bn = (Except.error DError.CacheInvalid, s) := by
  simp [Cache.read, h]

theorem read_miss_error {s : Cache} {bn : Nat} {e : DError}
    (h : lookupEntry bn s.entries = none) (hd : s.device.readFn bn = Except.error e) :
    s.read bn = (Except.error e, s) := by
  simp [Cache.read, h, hd]

theorem read_miss_ok {s : Cache} {bn : Nat} {block : List Nat}
    (h : lookupEntry bn s.entries = none) (hd : s.device.readFn bn = Except.ok block) :
    s.read bn = (Except.ok s.heapB.length,
      { s with heapB := s.heapB ++ [block],
               entries := insertEntry bn (EntryRef.block s.heapB.length) s.entries }) := by
  simp [Cache.read, h, hd]

theorem read_pointers_hit_block {s : Cache} {bn a : Nat}
    (h : lookupEntry bn s.entries = some (EntryRef.block a)) :
    s.read_pointers bn = some (Except.error DError.CacheInvalid, s) := by
  simp [Cache.read_pointers, h]

theorem read_pointers_hit_pointers {s : Cache} {bn a : Nat}
    (h : lookupEntry bn s.entries = some (EntryRef.pointers a)) :
    s.read_pointers bn = some (Except.ok a, s) := by
  simp [Cache.read_pointers, h]

theorem read_pointers_miss_error {s : Cache} {bn : Nat} {e : DError}
    (h : lookupEntry bn s.entries = none) (hd : s.device.readFn bn = Except.error e) :
    s.read_pointers bn = some (Except.error e, s) := by
  simp [Cache.read_pointers, h, hd]

theorem read_pointers_miss_ok {s : Cache} {bn : Nat} {block ps : List Nat}
    (h : lookupEntry bn s.entries = none) (hd : s.device.readFn bn = Except.ok block)
    (hf : from_u8 block = some ps) :
    s.read_pointers bn = some (Except.ok s.heapP.length,
      { s with heapP := s.heapP ++ [ps],
               entries := insertEntry bn (EntryRef.pointers s.heapP.length) s.entries }) := by
  simp [Cache.read_pointers, h, hd, hf]

theorem read_pointers_miss_assert {s : Cache} {bn : Nat} {block : List Nat}
    (h : lookupEntry bn s.entries = none) (hd : s.device.readFn bn = Except.ok block)
    (hf : from_u8 block = none) :
    s.read_pointers bn = none := by
  simp [Cache.read_pointers, h, hd, hf]

/-- Claim C1: if the cache holds an entry for `b` tagged `Pointers`, then
`Cache::read(b)` fails with `CacheInvalid`, and if the entry is tagged
`Block`, then `Cache::read_pointers(b)` fails with `CacheInvalid`; in both
cases the cache state is untouched, so neither call reinterprets the entry
under the other variant. -/
theorem C1_cache_tag_mismatch (s : Cache) (bn : Nat) :
    (∀ a, lookupEntry bn s.entries = some (EntryRef.pointers a) →
      s.read bn = (Except.error DError.CacheInvalid, s)) ∧
    (∀ a, lookupEntry bn s.entries = some (EntryRef.block a) →
      s.read_pointers bn = some (Except.error DError.CacheInvalid, s)) :=
  ⟨fun _ h => read_hit_pointers h, fun _ h => read_pointers_hit_block h⟩

def c1Device : BlockDevice :=
  { block_size := 128, block_count := 128,
    readFn := fun _ => Except.ok (List.replicate 128 0),
    writeFn := fun _ _ => Except.ok () }

def c1Cache : Cache :=
  { entries := [(0, EntryRef.pointers 0), (1, EntryRef.block 0)],
    device := c1Device,
    heapB := [List.replicate 128 0],
    heapP := [List.replicate 16 0] }

theorem C1_cache_tag_mismatch_witness :
    c1Cache.read 0 = (Except.error DError.CacheInvalid, c1Cache) ∧
    c1Cache.read_pointers 1 = some (Except.error DError.CacheInvalid, c1Cache) :=
  ⟨(C1_cache_tag_mismatch c1Cache 0).1 0 rfl,
   (C1_cache_tag_mismatch c1Cache 1).2 0 rfl⟩

/-- Claim C5: for a block cached as a `Block` entry, every successful
`Cache::read` returns a handle to the same underlying buffer (the stored
address), a cache hit makes no copy (the state, heaps included, is
unchanged), and a mutation through one handle is visible through the handle
any other `read` of the same block returns. -/
theorem C5_shared_block_handles (s : Cache) (bn addr : Nat) (bs : List Nat)
    (h : lookupEntry bn s.entries = some (EntryRef.block addr))
    (ha : addr < s.heapB.length) :
    s.read bn = (Except.ok addr, s) ∧
    (s.writeB addr bs).read bn = (Except.ok addr, s.writeB addr bs) ∧
    (s.writeB addr bs).derefB addr = bs := by
  refine ⟨read_hit_block h, read_hit_block (by simpa [Cache.writeB] using h), ?_⟩
  simp [Cache.writeB, Cache.derefB, List.getD, List.getElem?_set_self, ha]

def c5Cache : Cache :=
  { entries := [(3, EntryRef.block 0)],
    device := c1Device,
    heapB := [List.replicate 128 0],
    heapP := [] }

theorem C5_shared_block_handles_witness :
    c5Cache.read 3 = (Except.ok 0, c5Cache) ∧
    (c5Cache.writeB 0 (List.replicate 128 7)).read 3 =
      (Except.ok 0, c5Cache.writeB 0 (List.replicate 128 7)) ∧
    (c5Cache.writeB 0 (List.replicate 128 7)).derefB 0 = List.replicate 128 7 :=
  C5_shared_block_handles c5Cache 3 0 (List.replicate 128 7) rfl (by decide)

/-- Claim C6: `Cache::write_pointers(b, ps)` always succeeds (it is total),
replaces whatever entry was cached for `b` with a `Pointers` entry holding
exactly `ps`, touches no device state (its body contains no device call),
and a subsequent `Cache::read_pointers(b)` returns `ps` without changing the
cache further. -/
theorem C6_write_pointers_retag (s : Cache) (bn : Nat) (ps : List Nat) :
    lookupEntry bn (s.write_pointers bn ps).entries =
      some (EntryRef.pointers s.heapP.length) ∧
    (s.write_pointers bn ps).derefP s.heapP.length = ps ∧
    (s.write_pointers bn ps).device = s.device ∧
    (s.write_pointers bn ps).read_pointers_val bn =
      some (Except.ok ps, s.write_pointers bn ps) := by
  have hl : lookupEntry bn (s.write_pointers bn ps).entries =
      some (EntryRef.pointers s.heapP.length) := by
    simp [Cache.write_pointers, lookupEntry_insertEntry_self]
  have hd : (s.write_pointers bn ps).derefP s.heapP.length = ps := by
    simp [Cache.write_pointers, Cache.derefP, getD_concat_self]
  refine ⟨hl, hd, rfl, ?_⟩
  simp [Cache.read_pointers_val, read_pointers_hit_pointers hl, Except.map, hd]

/-- Claim C7: a block whose byte length is not divisible by the
`BlockNumber` width makes `from_u8`'s assertion fire (a panic, modelled as
`none`) — `Cache::read_pointers` then panics rather than return a truncated
pointer array — while under the precondition that successful device reads
return `block_size` bytes with `block_size` divisible by the width,
`read_pointers` never panics. -/
theorem C7_length_assertion (bs : List Nat) (s : Cache) (bn : Nat) :
    (bs.length % blockNumberSize ≠ 0 → from_u8 bs = none) ∧
    (lookupEntry bn s.entries = none → s.device.readFn bn = Except.ok bs →
      bs.length % blockNumberSize ≠ 0 → s.read_pointers bn = none) ∧
    (DeviceWF s.device → s.device.block_size % blockNumberSize = 0 →
      s.read_pointers bn ≠ none) := by
  have hnone : bs.length % blockNumberSize ≠ 0 → from_u8 bs = none := by
    intro h
    simp [from_u8, h]
  refine ⟨hnone, fun h hd hm => read_pointers_miss_assert h hd (hnone hm), ?_⟩
  intro hwf hdiv
  match hl : lookupEntry bn s.entries with
  | some (EntryRef.block a) => simp [read_pointers_hit_block hl]
  | some (EntryRef.pointers a) => simp [read_pointers_hit_pointers hl]
  | none =>
      match hr : s.device.readFn bn with
      | Except.error e => simp [read_pointers_miss_error hl hr]
      | Except.ok block =>
          have hlen : block.length % blockNumberSize = 0 := by
            rw [hwf bn block hr]
            exact hdiv
          have hf : from_u8 block = some (decodeLoop block) := by
            simp [from_u8, hlen]
          simp [read_pointers_miss_ok hl hr hf]

def c7BadDevice : BlockDevice :=
  { block_size := 3, block_count := 128,
    readFn := fun _ => Except.ok [0, 0, 0],
    writeFn := fun _ _ => Except.ok () }

def c7GoodDevice : BlockDevice :=
  { block_size := 128, block_count := 128,
    readFn := fun _ => Except.ok (List.replicate 128 0),
    writeFn := fun _ _ => Except.ok () }

theorem C7_length_assertion_witness :
    from_u8 [0, 0, 0] = none ∧
    (Cache.new c7BadDevice).read_pointers 5 = none ∧
    (Cache.new c7GoodDevice).read_pointers 5 ≠ none :=
  ⟨(C7_length_assertion [0, 0, 0] (Cache.new c7BadDevice) 5).1 (by decide),
   (C7_length_assertion [0, 0, 0] (Cache.new c7BadDevice) 5).2.1 rfl rfl (by decide),
   (C7_length_assertion [] (Cache.new c7GoodDevice) 5).2.2
     (fun bn bs h => by cases h; rfl) (by decide)⟩

/-- Claim C10: a device read failure during a cache miss is returned to the
caller with the cache state (entry map and heaps) unchanged — no entry is
inserted for that block — and a `CacheInvalid` failure likewise returns with
the state unchanged, for both `Cache::read` and `Cache::read_pointers`. -/
theorem C10_error_leaves_cache_unchanged (s : Cache) (bn : Nat) (e : DError) :
    (lookupEntry bn s.entries = none → s.device.readFn bn = Except.error e →
      s.read bn = (Except.error e, s)) ∧
    (lookupEntry bn s.entries = none → s.device.readFn bn = Except.error e →
      s.read_pointers bn = some (Except.error e, s)) ∧
    (∀ a, lookupEntry bn s.entries = some (EntryRef.pointers a) →
      s.read bn = (Except.error DError.CacheInvalid, s)) ∧
    (∀ a, lookupEntry bn s.entries = some (EntryRef.block a) →
      s.read_pointers bn = some (Except.error DError.CacheInvalid, s)) :=
  ⟨fun h hd => read_miss_error h hd,
   fun h hd => read_pointers_miss_error h hd,
   fun _ h => read_hit_pointers h,
   fun _ h => read_pointers_hit_block h⟩

def c10Device : BlockDevice :=
  { block_size := 128, block_count := 128,
    readFn := fun _ => Except.error DError.Io,
    writeFn := fun _ _ => Except.ok () }

theorem C10_error_leaves_cache_unchanged_witness :
    (Cache.new c10Device).read 2 = (Except.error DError.Io, Cache.new c10Device) ∧
    (Cache.new c10Device).read_pointers 2 =
      some (Except.error DError.Io, Cache.new c10Device) :=
  ⟨(C10_error_leaves_cache_unchanged (Cache.new c10Device) 2 DError.Io).1 rfl rfl,
   (C10_error_leaves_cache_unchanged (Cache.new c10Device) 2 DError.Io).2.1 rfl rfl⟩

/-- Claim C3: `to_u8` yields exactly `len(v)` times the `BlockNumber` width
bytes and `from_u8` undoes it element-for-element; consequently a sequence
stored with `write_pointers`, flushed with `write_all` (writing its byte
image at its block number), and re-read with `read_pointers` from a fresh
cache whose device returns the flushed bytes equals the original sequence. -/
theorem C3_pointer_roundtrip (v ps : List Nat) (bn : Nat) (d d2 : BlockDevice)
    (hv : ∀ x ∈ v, x < 18446744073709551616)
    (hps : ∀ x ∈ ps, x < 18446744073709551616)
    (hw : d.writeFn bn (to_u8 ps) = Except.ok ())
    (hr : d2.readFn bn = Except.ok (to_u8 ps)) :
    (to_u8 v).length = blockNumberSize * v.length ∧
    from_u8 (to_u8 v) = some v ∧
    ((Cache.new d).write_pointers bn ps).write_all = ([(bn, to_u8 ps)], Except.ok ()) ∧
    ((Cache.new d2).read_pointers_val bn).map (fun r => r.1) = some (Except.ok ps) := by
  refine ⟨to_u8_length v, from_u8_to_u8 v hv, ?_, ?_⟩
  · simp [Cache.new, Cache.write_pointers, insertEntry, Cache.write_all, writeAllGo,
      Cache.entryBytes, List.getD, hw]
  · have h4 : (Cache.new d2).read_pointers bn =
        some (Except.ok 0,
          { entries := [(bn, EntryRef.pointers 0)], device := d2,
            heapB := [], heapP := [ps] }) := by
      have h5 := @read_pointers_miss_ok (Cache.new d2) bn (to_u8 ps) ps rfl hr
        (from_u8_to_u8 ps hps)
      simpa [Cache.new, insertEntry] using h5
    simp [Cache.read_pointers_val, h4, Except.map, Cache.derefP, List.getD]

def c3WriteDevice : BlockDevice :=
  { block_size := 16, block_count := 128,
    readFn := fun _ => Except.ok (List.replicate 16 0),
    writeFn := fun _ _ => Except.ok () }

def c3ReadDevice : BlockDevice :=
  { block_size := 16, block_count := 128,
    readFn := fun _ => Except.ok (to_u8 [4, 5]),
    writeFn := fun _ _ => Except.ok () }

theorem C3_pointer_roundtrip_witness :
    (to_u8 [1, 2, 3]).length = blockNumberSize * 3 ∧
    from_u8 (to_u8 [1, 2, 3]) = some [1, 2, 3] ∧
    ((Cache.new c3WriteDevice).write_pointers 7 [4, 5]).write_all =
      ([(7, to_u8 [4, 5])], Except.ok ()) ∧
    ((Cache.new c3ReadDevice).read_pointers_val 7).map (fun r => r.1) =
      some (Except.ok [4, 5]) :=
  C3_pointer_roundtrip [1, 2, 3] [4, 5] 7 c3WriteDevice c3ReadDevice
    (by decide) (by decide) rfl rfl

theorem writeAllGo_all_ok (s : Cache) (l : List (Nat × EntryRef))
    (h : ∀ p ∈ l, s.device.writeFn p.1 (s.entryBytes p.2) = Except.ok ()) :
    writeAllGo s l = (l.map (fun p => (p.1, s.entryBytes p.2)), Except.ok ()) := by
  induction l with
  | nil => rfl
  | cons p rest ih =>
      obtain ⟨bn, e⟩ := p
      have hp := h (bn, e) (List.mem_cons_self _ _)
      simp [writeAllGo, hp, ih (fun q hq => h q (List.mem_cons_of_mem _ hq))]

theorem writeAllGo_first_error (s : Cache) (pre : List (Nat × EntryRef)) (bn : Nat)
    (e : EntryRef) (post : List (Nat × EntryRef)) (err : DError)
    (hpre : ∀ p ∈ pre, s.device.writeFn p.1 (s.entryBytes p.2) = Except.ok ())
    (hfail : s.device.writeFn bn (s.entryBytes e) = Except.error err) :
    writeAllGo s (pre ++ (bn, e) :: post) =
      (pre.map (fun p => (p.1, s.entryBytes p.2)), Except.error err) := by
  induction pre with
  | nil => simp [writeAllGo, hfail]
  | cons p rest ih =>
      obtain ⟨k, e'⟩ := p
      have hp := hpre (k, e') (List.mem_cons_self _ _)
      simp [writeAllGo, hp, ih (fun q hq => hpre q (List.mem_cons_of_mem _ hq))]

/-- Claim C4: `Cache::write_all` writes the current byte image of every
cached entry back to the device at that entry's block number when every
device write succeeds, and on a failing write it is fail-fast: the first
device error is propagated to the caller (not swallowed), with exactly the
entries before the failing one already written. -/
theorem C4_write_all_fail_fast (s : Cache) :
    ((∀ p ∈ s.entries, s.device.writeFn p.1 (s.entryBytes p.2) = Except.ok ()) →
      s.write_all = (s.entries.map (fun p => (p.1, s.entryBytes p.2)), Except.ok ())) ∧
    (∀ pre bn e post err, s.entries = pre ++ (bn, e) :: post →
      (∀ p ∈ pre, s.device.writeFn p.1 (s.entryBytes p.2) = Except.ok ()) →
      s.device.writeFn bn (s.entryBytes e) = Except.error err →
      s.write_all = (pre.map (fun p => (p.1, s.entryBytes p.2)), Except.error err)) := by
  constructor
  · intro h
    exact writeAllGo_all_ok s s.entries h
  · intro pre bn e post err hs hpre hfail
    unfold Cache.write_all
    rw [hs]
    exact writeAllGo_first_error s pre bn e post err hpre hfail

def c4OkCache : Cache :=
  { entries := [(0, EntryRef.block 0), (1, EntryRef.block 1)],
    device := { block_size := 2, block_count := 128,
                readFn := fun _ => Except.ok (List.replicate 2 0),
                writeFn := fun _ _ => Except.ok () },
    heapB := [List.replicate 2 9, List.replicate 2 8],
    heapP := [] }

def c4FailCache : Cache :=
  { entries := [(0, EntryRef.block 0), (1, EntryRef.block 1)],
    device := { block_size := 2, block_count := 128,
                readFn := fun _ => Except.ok (List.replicate 2 0),
                writeFn := fun bn _ =>
                  if bn = 1 then Except.error DError.Io else Except.ok () },
    heapB := [List.replicate 2 9, List.replicate 2 8],
    heapP := [] }

theorem C4_write_all_fail_fast_witness :
    c4OkCache.write_all =
      ([(0, List.replicate 2 9), (1, List.replicate 2 8)], Except.ok ()) ∧
    c4FailCache.write_all = ([(0, List.replicate 2 9)], Except.error DError.Io) := by
  constructor
  · have h := (C4_write_all_fail_fast c4OkCache).1 (fun p hp => rfl)
    simpa [c4OkCache, Cache.entryBytes, List.getD] using h
  · have h := (C4_write_all_fail_fast c4FailCache).2 [(0, EntryRef.block 0)] 1
      (EntryRef.block 1) [] DError.Io rfl
      (fun p hp => by
        have hq := List.mem_singleton.mp hp
        subst hq
        rfl)
      rfl
    simpa [c4FailCache, Cache.entryBytes, List.getD] using h

/-- The byte length of a cache entry: the buffer length for `Block`, element
count times the element width for `Pointers`. -/
def entryByteLen (s : Cache) : EntryRef → Nat
  | EntryRef.block a => (s.derefB a).length
  | EntryRef.pointers a => blockNumberSize * (s.derefP a).length

/-- Cache states reachable from `Cache::new` by any sequence of the four
cache operations.  `write_all` modifies neither the entry map nor the heaps,
so it appears as an identity step. -/
inductive Reachable : Cache → Prop where
  | new (d : BlockDevice) : Reachable (Cache.new d)
  | read (s : Cache) (bn : Nat) : Reachable s → Reachable (s.read bn).2
  | read_pointers (s : Cache) (bn : Nat) (r : Except DError Nat × Cache) :
      Reachable s → s.read_pointers bn = some r → Reachable r.2
  | write_pointers (s : Cache) (bn : Nat) (ps : List Nat) :
      Reachable s → Reachable (s.write_pointers bn ps)
  | write_all (s : Cache) : Reachable s → Reachable s

def c2Device : BlockDevice :=
  { block_size := 128, block_count := 128,
    readFn := fun _ => Except.ok (List.replicate 128 0),
    writeFn := fun _ _ => Except.ok () }

def c2Bad : Cache := (Cache.new c2Device).write_pointers 0 []

/-- Claim C2 as stated fails on the code: `Cache::write_pointers` installs
any vector without a length check, so one call with the empty pointer vector
reaches a state (on a well-formed 128-byte-block device) whose entry has
byte length 0, not one device block. -/
theorem C2_invariant_counterexample :
    Reachable c2Bad ∧ DeviceWF c2Bad.device ∧
    (0, EntryRef.pointers 0) ∈ c2Bad.entries ∧
    entryByteLen c2Bad (EntryRef.pointers 0) ≠ c2Bad.device.block_size := by
  refine ⟨Reachable.write_pointers (Cache.new c2Device) 0 [] (Reachable.new c2Device),
    ?_, ?_, ?_⟩
  · intro bn bs h
    cases h
    rfl
  · decide
  · decide

/-- An entry's heap address points inside the corresponding heap. -/
def refValid (s : Cache) : EntryRef → Prop
  | EntryRef.block a => a < s.heapB.length
  | EntryRef.pointers a => a < s.heapP.length

/-- The cache invariant carried through the reachability induction: every
live byte buffer is one block long, every live pointer array is one block's
worth of pointers, and every entry's address is live. -/
def CacheInv (s : Cache) : Prop :=
  (∀ b ∈ s.heapB, b.length = s.device.block_size) ∧
  (∀ p ∈ s.heapP, blockNumberSize * p.length = s.device.block_size) ∧
  (∀ q ∈ s.entries, refValid s q.2)

/-- Reachability restricted as the counterexample forces: the device is well
formed and every `write_pointers` call supplies a vector of exactly one
block's worth of pointers. -/
inductive ReachableSized : Cache → Prop where
  | new (d : BlockDevice) (h : DeviceWF d) : ReachableSized (Cache.new d)
  | read (s : Cache) (bn : Nat) : ReachableSized s → ReachableSized (s.read bn).2
  | read_pointers (s : Cache) (bn : Nat) (r : Except DError Nat × Cache) :
      ReachableSized s → s.read_pointers bn = some r → ReachableSized r.2
  | write_pointers (s : Cache) (bn : Nat) (ps : List Nat)
      (h : blockNumberSize * ps.length = s.device.block_size) :
      ReachableSized s → ReachableSized (s.write_pointers bn ps)
  | write_all (s : Cache) : ReachableSized s → ReachableSized s

theorem cacheInv_read (s : Cache) (bn : Nat) (hinv : CacheInv s)
    (hwf : DeviceWF s.device) : CacheInv (s.read bn).2 := by
  obtain ⟨hB, hP, hE⟩ := hinv
  match hl : lookupEntry bn s.entries with
  | some (EntryRef.block a) => rw [read_hit_block hl]; exact ⟨hB, hP, hE⟩
  | some (EntryRef.pointers a) => rw [read_hit_pointers hl]; exact ⟨hB, hP, hE⟩
  | none =>
      match hr : s.device.readFn bn with
      | Except.error e => rw [read_miss_error hl hr]; exact ⟨hB, hP, hE⟩
      | Except.ok block =>
          rw [read_miss_ok hl hr]
          refine ⟨?_, hP, ?_⟩
          · intro b hb
            rcases List.mem_append.mp hb with hb | hb
            · exact hB b hb
            · rw [List.mem_singleton.mp hb]
              exact hwf bn block hr
          · intro q hq
            rcases mem_insertEntry hq with hq | hq
            · rw [hq]
              simp [refValid]
            · have hv := hE q hq
              cases hq2 : q.2 with
              | block a =>
                  rw [hq2] at hv
                  simp only [refValid] at hv ⊢
                  simp only [List.length_append, List.length_cons, List.length_nil]
                  omega
              | pointers a =>
                  rw [hq2] at hv
                  simpa [refValid] using hv

theorem cacheInv_read_pointers (s : Cache) (bn : Nat) (r : Except DError Nat × Cache)
    (hinv : CacheInv s) (hwf : DeviceWF s.device)
    (hsome : s.read_pointers bn = some r) : CacheInv r.2 := by
  obtain ⟨hB, hP, hE⟩ := hinv
  match hl : lookupEntry bn s.entries with
  | some (EntryRef.block a) =>
      rw [read_pointers_hit_block hl] at hsome
      cases hsome
      exact ⟨hB, hP, hE⟩
  | some (EntryRef.pointers a) =>
      rw [read_pointers_hit_pointers hl] at hsome
      cases hsome
      exact ⟨hB, hP, hE⟩
  | none =>
      match hr : s.device.readFn bn with
      | Except.error e =>
          rw [read_pointers_miss_error hl hr] at hsome
          cases hsome
          exact ⟨hB, hP, hE⟩
      | Except.ok block =>
          match hf : from_u8 block with
          | none =>
              rw [read_pointers_miss_assert hl hr hf] at hsome
              cases hsome
          | some ps =>
              rw [read_pointers_miss_ok hl hr hf] at hsome
              cases hsome
              refine ⟨hB, ?_, ?_⟩
              · intro p hp
                rcases List.mem_append.mp hp with hp | hp
                · exact hP p hp
                · rw [List.mem_singleton.mp hp]
                  rw [from_u8_some_length hf, hwf bn block hr]
              · intro q hq
                rcases mem_insertEntry hq with hq | hq
                · rw [hq]
                  simp [refValid]
                · have hv := hE q hq
                  cases hq2 : q.2 with
                  | block a =>
                      rw [hq2] at hv
                      simpa [refValid] using hv
                  | pointers a =>
                      rw [hq2] at hv
                      simp only [refValid] at hv ⊢
                      simp only [List.length_append, List.length_cons, List.length_nil]
                      omega

theorem cacheInv_write_pointers (s : Cache) (bn : Nat) (ps : List Nat)
    (hinv : CacheInv s)
    (hps : blockNumberSize * ps.length = s.device.block_size) :
    CacheInv (s.write_pointers bn ps) := by
  obtain ⟨hB, hP, hE⟩ := hinv
  refine ⟨hB, ?_, ?_⟩
  · intro p hp
    rcases List.mem_append.mp hp with hp | hp
    · exact hP p hp
    · rw [List.mem_singleton.mp hp]
      exact hps
  · intro q hq
    rcases mem_insertEntry hq with hq | hq
    · rw [hq]
      simp [Cache.write_pointers, refValid]
    · have hv := hE q hq
      cases hq2 : q.2 with
      | block a =>
          rw [hq2] at hv
          simpa [Cache.write_pointers, refValid] using hv
      | pointers a =>
          rw [hq2] at hv
          simp only [Cache.write_pointers, refValid] at hv ⊢
          simp only [List.length_append, List.length_cons, List.length_nil]
          omega

theorem read_device_eq (s : Cache) (bn : Nat) : (s.read bn).2.device = s.device := by
  match hl : lookupEntry bn s.entries with
  | some (EntryRef.block a) => rw [read_hit_block hl]
  | some (EntryRef.pointers a) => rw [read_hit_pointers hl]
  | none =>
      match hr : s.device.readFn bn with
      | Except.error e => rw [read_miss_error hl hr]
      | Except.ok block => rw [read_miss_ok hl hr]

theorem read_pointers_device_eq (s : Cache) (bn : Nat) (r : Except DError Nat × Cache)
    (hsome : s.read_pointers bn = some r) : r.2.device = s.device := by
  match hl : lookupEntry bn s.entries with
  | some (EntryRef.block a) =>
      rw [read_pointers_hit_block hl] at hsome
      cases hsome
      rfl
  | some (EntryRef.pointers a) =>
      rw [read_pointers_hit_pointers hl] at hsome
      cases hsome
      rfl
  | none =>
      match hr : s.device.readFn bn with
      | Except.error e =>
          rw [read_pointers_miss_error hl hr] at hsome
          cases hsome
          rfl
      | Except.ok block =>
          match hf : from_u8 block with
          | none =>
              rw [read_pointers_miss_assert hl hr hf] at hsome
              cases hsome
          | some ps =>
              rw [read_pointers_miss_ok hl hr hf] at hsome
              cases hsome
              rfl

theorem reachableSized_inv (s : Cache) (h : ReachableSized s) :
    CacheInv s ∧ DeviceWF s.device := by
  induction h with
  | new d hwf =>
      refine ⟨⟨?_, ?_, ?_⟩, hwf⟩ <;> simp [Cache.new]
  | read s bn _ ih =>
      refine ⟨cacheInv_read s bn ih.1 ih.2, ?_⟩
      rw [read_device_eq]
      exact ih.2
  | read_pointers s bn r _ hsome ih =>
      refine ⟨cacheInv_read_pointers s bn r ih.1 ih.2 hsome, ?_⟩
      rw [read_pointers_device_eq s bn r hsome]
      exact ih.2
  | write_pointers s bn ps hps _ ih =>
      exact ⟨cacheInv_write_pointers s bn ps ih.1 hps, ih.2⟩
  | write_all s _ ih => exact ih

/-- Claim C2, amended as the counterexample forces: over any sequence of the
four cache operations in which the device is well formed and every
`write_pointers` call supplies one block's worth of pointers, every entry in
the cache map has byte length (element count times element width for
`Pointers` entries) equal to the device's block size.  Unrestricted
`write_pointers` breaks the invariant, see the counterexample. -/
theorem C2_entry_length_invariant (s : Cache) (h : ReachableSized s) :
    ∀ q ∈ s.entries, entryByteLen s q.2 = s.device.block_size := by
  obtain ⟨⟨hB, hP, hE⟩, _⟩ := reachableSized_inv s h
  intro q hq
  have hv := hE q hq
  cases hqe : q.2 with
  | block a =>
      rw [hqe] at hv
      simp only [refValid] at hv
      simp only [entryByteLen, Cache.derefB]
      exact hB _ (getD_mem s.heapB a hv)
  | pointers a =>
      rw [hqe] at hv
      simp only [refValid] at hv
      simp only [entryByteLen, Cache.derefP]
      exact hP _ (getD_mem s.heapP a hv)

def c2Good : Cache := (Cache.new c2Device).write_pointers 0 (List.replicate 16 0)

theorem C2_entry_length_invariant_witness :
    entryByteLen c2Good (EntryRef.pointers 0) = c2Good.device.block_size :=
  C2_entry_length_invariant c2Good
    (ReachableSized.write_pointers (Cache.new c2Device) 0 (List.replicate 16 0)
      (by decide)
      (ReachableSized.new c2Device (fun bn bs h => by cases h; rfl)))
    (0, EntryRef.pointers 0) (by decide)

/-- The possible outcomes of the geometry validation in the `new_fs` builtin:
an error message about the block size, one about the block count (each makes
the builtin return before `FileSystem::new` runs, so no filesystem is
constructed or persisted), or formatting proceeds. -/
inductive NewFsOutcome where
  | errBlockSize (got : Nat)
  | errBlockCount (got : Nat)
  | formatted
deriving DecidableEq, Repr

/-- The geometry checks of `new_fs` in `src/beach/src/builtins.rs`, applied
to the configuration of the device `BlockDevice::create` returned: reject
`block_size < 128` first, then `block_count < 128`, otherwise build the
filesystem and close it. -/
def new_fs_check (block_size block_count : Nat) : NewFsOutcome :=
  if block_size < 128 then NewFsOutcome.errBlockSize block_size
  else if block_count < 128 then NewFsOutcome.errBlockCount block_count
  else NewFsOutcome.formatted

/-- Claim C8: `new_fs` proceeds to construct a filesystem exactly when the
device's `block_size` and `block_count` are both at least 128; otherwise it
reports a configuration error about whichever bound is violated and returns
without constructing one. -/
theorem C8_newfs_geometry (bs bc : Nat) :
    (new_fs_check bs bc = NewFsOutcome.formatted ↔ 128 ≤ bs ∧ 128 ≤ bc) ∧
    (new_fs_check bs bc = NewFsOutcome.formatted ∨
      new_fs_check bs bc = NewFsOutcome.errBlockSize bs ∨
      new_fs_check bs bc = NewFsOutcome.errBlockCount bc) := by
  unfold new_fs_check
  by_cases h1 : bs < 128
  · simp [h1]
  · by_cases h2 : bc < 128
    · simp [h1, h2]
    · simp [h1, h2]
      omega

/-- Modelled from the spec: the persisted clean/dirty marker of a formatted
device.  The `umbrella::fs` module (`FileSystem::new` / `read` / `close` and
the `Mount` result) is not among the sources at hand; §3 and §4.4 of the
spec fix its behaviour, which this state models. -/
structure FsDisk where
  clean : Bool
deriving DecidableEq, Repr

/-- Modelled from the spec: `FileSystem::new(device)` formats superblock and
maps and persists them immediately, but only `close()` writes the clean
marker, so a freshly formatted, not-yet-closed filesystem leaves the marker
dirty. -/
def fsNew (d : FsDisk) : FsDisk := { d with clean := false }

/-- Modelled from the spec: `FileSystem::close(self)` flushes the cache and
writes the clean marker. -/
def fsClose (d : FsDisk) : FsDisk := { d with clean := true }

/-- The `Mount` result of `FileSystem::read` as the `mount` builtin consumes
it (the `file_system` payload is irrelevant to mount cleanliness). -/
structure Mount where
  clean_mount : Bool
deriving DecidableEq, Repr

/-- Modelled from the spec: `FileSystem::read(device)` reconstructs the
filesystem and reports in `clean_mount` whether the previous session wrote
the clean marker by calling `close()`. -/
def fsRead (d : FsDisk) : Mount := { clean_mount := d.clean }

/-- What the `mount` builtin (`src/beach/src/builtins.rs`) does with a
successful `FileSystem::read`: it prints a warning exactly when
`clean_mount` is false, and in either case installs the filesystem as the
current one — a dirty mount is a warning, not a failure. -/
structure MountReport where
  warned : Bool
  installed : Bool
deriving DecidableEq, Repr

/-- The `Ok(Mount { .. })` branch of the `mount` builtin. -/
def mount_outcome (m : Mount) : MountReport :=
  { warned := ! m.clean_mount, installed := true }

/-- Claim C9: `new(device)` immediately followed by `read(device)` reports
`clean_mount = false`, while `new(device)`, `close()`, then `read(device)`
reports `clean_mount = true`; a false value surfaces as a warning from the
mount builtin while the filesystem is still installed (not a failure). -/
theorem C9_clean_mount (d : FsDisk) :
    fsRead (fsNew d) = { clean_mount := false } ∧
    fsRead (fsClose (fsNew d)) = { clean_mount := true } ∧
    mount_outcome (fsRead (fsNew d)) = { warned := true, installed := true } ∧
    mount_outcome (fsRead (fsClose (fsNew d))) = { warned := false, installed := true } :=
  ⟨rfl, rfl, rfl, rfl⟩

end Beach
